import Mathlib

/-!
Verification of the heph actor runtime core against its specification.

The Rust sources under `src/` are shallowly embedded below: pure functions
become Lean functions, stateful methods become explicit state passing, the
inner runnable of a process and the wall clock are behaviour oracles that
are passed in as arguments.  `Duration` values are nanosecond counts
(`Nat`).  Submodules of the repository that are declared but whose source
file is absent (`priority.rs`, `runqueue.rs`, `tree.rs`, the inbox module,
the `Signal` type and the shared scheduler) are modelled from the
specification; each such definition says so in its doc comment.
-/

namespace Heph

/-- Modelled from the spec: `src/src/rt/scheduler/priority.rs` is not under
`src/`.  Per the spec a priority is one of a 10-level enumeration, each level
carrying a multiplicative weight used in the scheduler ordering key
`runtime * priority_weight`; a higher priority has a smaller weight. -/
structure Priority where
  weight : Nat
deriving DecidableEq, Repr

/-- Modelled from the spec: the `Ord` instance of `Priority` ranks a higher
priority (smaller weight) as the greater value, so that in the scheduler's
tie-break "higher priority wins". -/
def Priority.cmp (self other : Priority) : Ordering :=
  compare other.weight self.weight

/-- From `src/src/rt/scheduler/mod.rs` (`struct ProcessData`): priority,
accumulated runtime and the (type-erased) runnable.  The runnable itself is
kept outside the record as a behaviour oracle; the pid, derived in the source
from the allocation address, is an abstract `Nat` here. -/
structure ProcessData where
  pid : Nat
  priority : Priority
  runtime : Nat
deriving DecidableEq, Repr

/-- The ordering key `runtime * priority_weight` of a process
(`Duration * Priority` in the source). -/
def ProcessData.sortKey (p : ProcessData) : Nat :=
  p.runtime * p.priority.weight

/-- From `impl Ord for ProcessData` in `src/src/rt/scheduler/mod.rs`:
`(other.runtime * other.priority).cmp(&(self.runtime * self.priority))
 .then_with(|| self.priority.cmp(&other.priority))`. -/
def ProcessData.cmp (self other : ProcessData) : Ordering :=
  (compare other.sortKey self.sortKey).then (Priority.cmp self.priority other.priority)

/-- From `src/src/rt/process` (re-exported in `scheduler/mod.rs`): the result
of running a process once. -/
inductive ProcessResult where
  | Complete
  | Pending
deriving DecidableEq, Repr

/-- From `ProcessData::run` in `src/src/rt/scheduler/mod.rs`: record a start
timestamp, delegate to the runnable, add the elapsed time to the stored
runtime and return the runnable's result.  The runnable's behaviour is the
pair of oracles `elapsed` (nanoseconds the run took) and `result`. -/
def ProcessData.run (pd : ProcessData) (elapsed : Nat) (result : ProcessResult) :
    ProcessData × ProcessResult :=
  ({ pd with runtime := pd.runtime + elapsed }, result)

/-- Runs a process through a whole sequence of `(elapsed, result)` behaviours,
keeping only the process record. -/
def ProcessData.runSeq (pd : ProcessData) : List (Nat × ProcessResult) → ProcessData
  | [] => pd
  | (e, r) :: rest => ProcessData.runSeq (pd.run e r).1 rest

/-- Modelled from the spec: `src/src/rt/scheduler/runqueue.rs` is not under
`src/`.  Per the spec the run queue is a priority-ordered multiset of ready
processes whose pop removes the process that runs next. -/
abbrev RunQueue := List ProcessData

/-- The empty run queue (`RunQueue::empty`). -/
def RunQueue.empty : RunQueue := []

/-- Modelled from the spec: insert a process into the run queue
(`RunQueue::add` / `add_mut` in the source). -/
def RunQueue.add (q : RunQueue) (p : ProcessData) : RunQueue :=
  p :: q

/-- Select from `p` and the processes of the list the one that is greatest
under `ProcessData.cmp` (first such on ties), returning it together with the
remaining processes. -/
def selectMax (p : ProcessData) : List ProcessData → ProcessData × List ProcessData
  | [] => (p, [])
  | q :: rest =>
    if ProcessData.cmp p q = Ordering.lt then
      let (m, rest2) := selectMax q rest
      (m, p :: rest2)
    else
      let (m, rest2) := selectMax p rest
      (m, q :: rest2)

/-- Modelled from the spec: pop the next process to run
(`RunQueue::remove` / `remove_mut` in the source).  The element popped is a
maximal one under `ProcessData.cmp`, which by the source's inverted comparison
is the process with the smallest `runtime * priority_weight`, ties broken
towards higher priority. -/
def RunQueue.remove : RunQueue → Option (ProcessData × RunQueue)
  | [] => none
  | p :: rest => some (selectMax p rest)

/-- `RunQueue::has_process`: whether any process is ready. -/
def RunQueue.has_process (q : RunQueue) : Bool :=
  !q.isEmpty

/-- Modelled from the spec: `src/src/rt/scheduler/tree.rs` is not under
`src/`.  Per the spec the inactive set is a lookup table from pid to the
suspended process record; embedded as a list of process records keyed by
their pid field. -/
abbrev Tree := List ProcessData

/-- The empty inactive set (`Tree::empty`). -/
def Tree.empty : Tree := []

/-- Modelled from the spec: remove and return the process with the given pid
from the inactive set, if present (`Tree::remove`). -/
def Tree.remove (t : Tree) (pid : Nat) : Option ProcessData × Tree :=
  match t with
  | [] => (none, [])
  | p :: rest =>
    if p.pid = pid then (some p, rest)
    else
      let (r, rest2) := Tree.remove rest pid
      (r, p :: rest2)

/-- `Tree::add`: insert a process into the inactive set. -/
def Tree.add (t : Tree) (p : ProcessData) : Tree :=
  p :: t

/-- `Tree::has_process`: whether the inactive set holds any process. -/
def Tree.has_process (t : Tree) : Bool :=
  !t.isEmpty

/-- From `src/src/rt/scheduler/mod.rs` (`struct Scheduler`): ready processes
in the run queue, inactive processes in the tree. -/
structure Scheduler where
  ready : RunQueue
  inactive : Tree
deriving DecidableEq, Repr

/-- `Scheduler::new` (the scheduler half of the returned pair). -/
def Scheduler.new : Scheduler :=
  { ready := RunQueue.empty, inactive := Tree.empty }

/-- `Scheduler::has_ready_process`. -/
def Scheduler.has_ready_process (s : Scheduler) : Bool :=
  RunQueue.has_process s.ready

/-- `Scheduler::has_process`: any process, in any state. -/
def Scheduler.has_process (s : Scheduler) : Bool :=
  Tree.has_process s.inactive || s.has_ready_process

/-- `Scheduler::mark_ready`: if the pid is in the inactive set, move the
process to the run queue; an invalid or outdated pid is silently ignored. -/
def Scheduler.mark_ready (s : Scheduler) (pid : Nat) : Scheduler :=
  match Tree.remove s.inactive pid with
  | (some process, inactive2) =>
    { ready := RunQueue.add s.ready process, inactive := inactive2 }
  | (none, _) => s

/-- `Scheduler::next_process`: pop the next ready process from the run
queue. -/
def Scheduler.next_process (s : Scheduler) : Option ProcessData × Scheduler :=
  match RunQueue.remove s.ready with
  | some (p, rest) => (some p, { s with ready := rest })
  | none => (none, s)

/-- `Scheduler::add_process`: add back a process previously removed via
`next_process`; it goes into the inactive set. -/
def Scheduler.add_process (s : Scheduler) (p : ProcessData) : Scheduler :=
  { s with inactive := Tree.add s.inactive p }

/-- All pids currently held by the scheduler, in any state. -/
def Scheduler.pids (s : Scheduler) : List Nat :=
  s.ready.map ProcessData.pid ++ s.inactive.map ProcessData.pid

/-- Modelled from the spec: the shared scheduler's source
(`src/src/rt/shared/scheduler`) is not under `src/`.  Per the spec it has the
same logical contract as the local scheduler: a ready multiset and an
inactive set; `remove_process` returns ownership of a ready process to the
caller, `complete` releases its storage and `add_process` puts it back as
inactive. -/
structure SharedSched where
  ready : List ProcessData
  inactive : List ProcessData
deriving DecidableEq, Repr

/-- Modelled from the spec: `SharedSched` pop of a ready process
(`remove_process`). -/
def SharedSched.remove_process (ss : SharedSched) : Option ProcessData × SharedSched :=
  match RunQueue.remove ss.ready with
  | some (p, rest) => (some p, { ss with ready := rest })
  | none => (none, ss)

/-- Modelled from the spec: `SharedSched::add_process` puts a process that
returned Pending back into the inactive set. -/
def SharedSched.add_process (ss : SharedSched) (p : ProcessData) : SharedSched :=
  { ss with inactive := p :: ss.inactive }

/-- Modelled from the spec: `SharedSched::has_process`, any process in any
state. -/
def SharedSched.has_process (ss : SharedSched) : Bool :=
  !ss.ready.isEmpty || !ss.inactive.isEmpty

/-- Modelled from the spec: `SharedSched::has_ready_process`. -/
def SharedSched.has_ready_process (ss : SharedSched) : Bool :=
  !ss.ready.isEmpty

/-- The behaviour oracle for the runnables: by pid, the result the inner
runnable produces on its next run and the time the run takes. -/
structure Behaviour where
  result : Nat → ProcessResult
  elapsed : Nat → Nat

/-- The state of one worker's `Runtime` (`src/src/rt/local/mod.rs`) that the
event-loop claims are about: the local scheduler, the shared runtime
internals' scheduler, and the `started` flag. -/
structure Worker where
  scheduler : Scheduler
  shared : SharedSched
  started : Bool
deriving DecidableEq, Repr

/-- From `Runtime::run_local_process` in `src/src/rt/local/mod.rs`: pop the
next local process; if there is one run it, releasing it on `Complete` and
re-inserting it via `Scheduler::add_process` on `Pending`.  Returns whether a
process was run. -/
def Runtime.run_local_process (b : Behaviour) (w : Worker) : Bool × Worker :=
  match Scheduler.next_process w.scheduler with
  | (some process, s1) =>
    match process.run (b.elapsed process.pid) (b.result process.pid) with
    | (_, ProcessResult.Complete) => (true, { w with scheduler := s1 })
    | (process2, ProcessResult.Pending) =>
      (true, { w with scheduler := s1.add_process process2 })
  | (none, _) => (false, w)

/-- From `Runtime::run_shared_process` in `src/src/rt/local/mod.rs`: same as
the local variant but against the shared scheduler, completing or re-adding
the process there. -/
def Runtime.run_shared_process (b : Behaviour) (w : Worker) : Bool × Worker :=
  match SharedSched.remove_process w.shared with
  | (some process, ss1) =>
    match process.run (b.elapsed process.pid) (b.result process.pid) with
    | (_, ProcessResult.Complete) => (true, { w with shared := ss1 })
    | (process2, ProcessResult.Pending) =>
      (true, { w with shared := ss1.add_process process2 })
  | (none, _) => (false, w)

/-- From `src/src/rt/local/mod.rs`: number of processes to run in between
calls to poll. -/
def RUN_POLL_RATIO : Nat := 32

/-- Outcome of one run burst of the event loop: the loop either returns with
success or breaks out to the scheduling phase. -/
inductive BurstOutcome where
  | exitOk
  | schedule
deriving DecidableEq, Repr

/-- From the `for _ in 0..RUN_POLL_RATIO` loop of `Runtime::run_event_loop`
in `src/src/rt/local/mod.rs`: per iteration run one local process, or else
one shared process; if neither ran, return success when neither scheduler
has any process and the runtime was started, otherwise break to the
scheduling phase.  Returns the outcome, the worker state at the end of the
burst and the number of processes run. -/
def Runtime.runBurst (b : Behaviour) : Nat → Worker → BurstOutcome × Worker × Nat
  | 0, w => (BurstOutcome.schedule, w, 0)
  | fuel + 1, w =>
    match Runtime.run_local_process b w with
    | (true, w1) =>
      let (o, w2, c) := Runtime.runBurst b fuel w1
      (o, w2, c + 1)
    | (false, _) =>
      match Runtime.run_shared_process b w with
      | (true, w1) =>
        let (o, w2, c) := Runtime.runBurst b fuel w1
        (o, w2, c + 1)
      | (false, _) =>
        if !w.scheduler.has_process && !w.shared.has_process && w.started then
          (BurstOutcome.exitOk, w, 0)
        else
          (BurstOutcome.schedule, w, 0)

/-- The run bursts of `Runtime::run_event_loop` use `RUN_POLL_RATIO` as
their iteration bound. -/
def Runtime.eventLoopBurst (b : Behaviour) (w : Worker) : BurstOutcome × Worker × Nat :=
  Runtime.runBurst b RUN_POLL_RATIO w

/-- Events a worker processes against its local scheduler after a run: a
wakeup for a pid (OS event, user-space waker or timer, all of which call
`Scheduler::mark_ready`) or running the next ready process. -/
inductive Event where
  | wakeup (pid : Nat)
  | runNext
deriving DecidableEq, Repr

/-- The pid `Runtime::run_local_process` would run on the given worker state,
if any. -/
def Runtime.runPid (w : Worker) : Option Nat :=
  (Scheduler.next_process w.scheduler).1.map ProcessData.pid

/-- Apply one event to the worker, reporting the pid that was run, if any. -/
def Runtime.stepEvent (b : Behaviour) (w : Worker) : Event → Worker × Option Nat
  | Event.wakeup pid => ({ w with scheduler := w.scheduler.mark_ready pid }, none)
  | Event.runNext => ((Runtime.run_local_process b w).2, Runtime.runPid w)

/-- The pids run while processing a sequence of events. -/
def Runtime.runTrace (b : Behaviour) (w : Worker) : List Event → List Nat
  | [] => []
  | e :: es =>
    match Runtime.stepEvent b w e with
    | (w2, some pid) => pid :: Runtime.runTrace b w2 es
    | (w2, none) => Runtime.runTrace b w2 es

/-- Modelled from the spec: the shared scheduler's `next_timeout(now, hint)`
is not under `src/`.  Per the spec the local timeout is "further reduced by
the shared scheduler's next deadline", and with no local deadline the shared
scheduler's next deadline is used, "or block indefinitely if none"
(`none` = no timeout). -/
def SharedSched.next_timeout (sharedDeadline : Option Nat) (now : Nat)
    (hint : Option Nat) : Option Nat :=
  match sharedDeadline with
  | none => hint
  | some d =>
    match hint with
    | none => some (d - now)
    | some h => some (min h (d - now))

/-- The inputs `Runtime::determine_timeout` reads from the runtime state:
whether the local scheduler has a ready process, whether the user-space waker
event queue is non-empty, whether the shared scheduler has a ready process,
the next local timer deadline, the shared timers' next deadline and the
current instant (nanosecond count). -/
structure TimeoutInputs where
  localReady : Bool
  wakerNonEmpty : Bool
  sharedReady : Bool
  localDeadline : Option Nat
  sharedDeadline : Option Nat
  now : Nat
deriving DecidableEq, Repr

/-- From `Runtime::determine_timeout` in `src/src/rt/local/mod.rs`. -/
def Runtime.determine_timeout (i : TimeoutInputs) : Option Nat :=
  if i.localReady || i.wakerNonEmpty || i.sharedReady then
    some 0
  else
    match i.localDeadline with
    | some deadline =>
      if deadline ≤ i.now then
        some 0
      else
        SharedSched.next_timeout i.sharedDeadline i.now (some (deadline - i.now))
    | none => SharedSched.next_timeout i.sharedDeadline i.now none

/-- What the single thread owning the `Scheduler` is currently doing with the
run-queue `RwLock`: nothing, holding the write guard of a successful
`try_write`, or holding the read guard of the `try_read` inside
`Scheduler::run_queue`. -/
inductive OwnerPhase where
  | outside
  | writing
  | reading
deriving DecidableEq, Repr

/-- The state of the `Arc<RwLock<RunQueue>>` shared between the `Scheduler`
and its `WorkStealer` clones: whether the write lock is held, how many read
guards are outstanding, and the owner thread's phase. -/
structure LockSys where
  writer : Bool
  readers : Nat
  owner : OwnerPhase
deriving DecidableEq, Repr

/-- The initial lock state created by `Scheduler::new`. -/
def LockSys.init : LockSys :=
  { writer := false, readers := 0, owner := OwnerPhase.outside }

/-- `RwLock::try_read` as used in `Scheduler::run_queue` and
`WorkStealer::steal_and_run`: succeeds unless the write lock is held. -/
def LockSys.try_read (s : LockSys) : Option LockSys :=
  if s.writer then none
  else some { s with readers := s.readers + 1 }

/-- The access discipline of `src/src/rt/scheduler/mod.rs`: the owner
(`Scheduler`, a unique reference) may `try_write` and `try_read`; the
stealers (`WorkStealer`) may only `try_read`; every acquired guard is
released.  Failed lock attempts do not change the state and are omitted. -/
inductive LockStep : LockSys → LockSys → Prop
  | ownerTryWriteOk (s : LockSys) :
      s.writer = false → s.readers = 0 → s.owner = OwnerPhase.outside →
      LockStep s { writer := true, readers := 0, owner := OwnerPhase.writing }
  | ownerWriteDone (s : LockSys) :
      s.owner = OwnerPhase.writing →
      LockStep s { s with writer := false, owner := OwnerPhase.outside }
  | ownerTryReadOk (s : LockSys) :
      s.writer = false → s.owner = OwnerPhase.outside →
      LockStep s { s with readers := s.readers + 1, owner := OwnerPhase.reading }
  | ownerReadDone (s : LockSys) :
      s.owner = OwnerPhase.reading →
      LockStep s { s with readers := s.readers - 1, owner := OwnerPhase.outside }
  | stealerTryReadOk (s : LockSys) :
      s.writer = false →
      LockStep s { s with readers := s.readers + 1 }
  | stealerReadDone (s : LockSys) :
      0 < s.readers →
      LockStep s { s with readers := s.readers - 1 }

/-- Lock states reachable from the initial state under the access
discipline. -/
inductive LockReachable : LockSys → Prop
  | init : LockReachable LockSys.init
  | step {s t : LockSys} : LockReachable s → LockStep s t → LockReachable t

/-- From `src/src/rt/Signal` via the spec: the signal kinds relayed to the
workers.  The type itself is not under `src/`; modelled from the spec list
Interrupt, Terminate, Quit, User1, User2. -/
inductive Signal where
  | interrupt
  | terminate
  | quit
  | user1
  | user2
deriving DecidableEq, Repr

/-- Modelled from the spec: `Signal::should_stop` is not under `src/`.  Per
the spec the stop-class signals are the ones that ask the runtime to stop;
the user-defined signals are not stop signals. -/
def Signal.should_stop : Signal → Bool
  | Signal.user1 => false
  | Signal.user2 => false
  | _ => true

/-- The worker-fatal errors of `rt::worker::Error` that the embedded
fragments of `src/src/rt/local/mod.rs` can produce. -/
inductive RtError where
  | ProcessInterrupted
deriving DecidableEq, Repr

/-- One registered signal-receiver `ActorRef<Signal>`: whether its inbox is
still connected and the messages delivered so far.  `try_send` on a
disconnected receiver fails; the failure is discarded by `relay_signal`. -/
structure SigReceiver where
  connected : Bool
  inbox : List Signal
deriving DecidableEq, Repr

/-- `ActorRef::try_send` as used by `Runtime::relay_signal`: delivers when
connected, otherwise the message is lost. -/
def SigReceiver.try_send (r : SigReceiver) (s : Signal) : SigReceiver :=
  if r.connected then { r with inbox := r.inbox ++ [s] } else r

/-- From `Runtime::relay_signal` in `src/src/rt/local/mod.rs`: with no
receivers and a stop-class signal, fail with `ProcessInterrupted`; otherwise
`try_send` the signal to every receiver, ignoring individual send failures,
and succeed. -/
def Runtime.relay_signal (receivers : List SigReceiver) (signal : Signal) :
    Except RtError (List SigReceiver) :=
  if receivers.isEmpty && signal.should_stop then
    Except.error RtError.ProcessInterrupted
  else
    Except.ok (receivers.map (fun r => r.try_send signal))

/-- `SendError` from `src/src/actor_ref` and `src/src/error`: the message
could not be sent and is handed back to the sender. -/
structure SendError (M : Type) where
  message : M
deriving DecidableEq, Repr

/-- The inbox of an actor as seen through an `InboxRef`: whether the owning
`ActorProcess` (and with it the inbox) is still alive, and its queued
messages. -/
structure InboxState (M : Type) where
  alive : Bool
  messages : List M
deriving DecidableEq, Repr

/-- Modelled from the spec: the inbox module (`InboxRef::try_deliver`) is not
under `src/`.  Per the spec an actor reference holds a weak-style reference
to the inbox, and a send to a dropped inbox hands the message back. -/
def InboxRef.try_deliver (inbox : InboxState M) (msg : M) :
    Except M (InboxState M) :=
  if inbox.alive then Except.ok { inbox with messages := inbox.messages ++ [msg] }
  else Except.error msg

/-- From `impl Send for Local` in `src/src/actor_ref/local.rs`: delegate to
`try_deliver`, wrapping a returned message in a `SendError`. -/
def Local.send (inbox : InboxState M) (msg : M) :
    Except (SendError M) (InboxState M) :=
  match InboxRef.try_deliver inbox msg with
  | Except.ok inbox2 => Except.ok inbox2
  | Except.error m => Except.error { message := m }

/-- The crossbeam channel behind a `MachineLocalActorRef`: whether the
receiving side still exists, and the queued messages. -/
structure MachineChannel (M : Type) where
  connected : Bool
  queue : List M
deriving DecidableEq, Repr

/-- From `MachineLocalActorRef::send` in `src/src/actor_ref/machine.rs`: the
message is pushed onto the crossbeam sender and the waker woken; the result
of the channel send is discarded and `Ok(())` is returned unconditionally.
On a disconnected channel the message is lost. -/
def MachineLocalActorRef.send (ch : MachineChannel M) (msg : M) :
    MachineChannel M × Except (SendError M) Unit :=
  (if ch.connected then { ch with queue := ch.queue ++ [msg] } else ch,
   Except.ok ())

/-- `NoReceiver` from `src/src/channel/mod.rs`: the receiving half was
dropped; the sent value can be retrieved. -/
structure NoReceiver (T : Type) where
  value : T
deriving DecidableEq, Repr

/-- `NoValue` from `src/src/channel/mod.rs`: all senders were dropped and all
sent values were received. -/
inductive NoValue where
  | mk
deriving DecidableEq, Repr

/-- The `ChannelInner` of `src/src/channel/unbounded.rs` together with the
reference counts of the `Shared` handle: the queued values, the number of
live `Sender` handles, and whether the `Receiver` is alive.  The waker field
only causes wakeups and is not modelled. -/
structure UnboundedChannel (T : Type) where
  values : List T
  senders : Nat
  receiverAlive : Bool
deriving DecidableEq, Repr

/-- `Rc::strong_count` of the `Shared<ChannelInner>`: one per live `Sender`
plus one for the `Receiver`, if alive. -/
def UnboundedChannel.strong_count (c : UnboundedChannel T) : Nat :=
  c.senders + (if c.receiverAlive then 1 else 0)

/-- From `Sender::send` in `src/src/channel/unbounded.rs`: if not connected
(`strong_count < 2`) return `NoReceiver(value)`; otherwise push the value
onto the queue (and wake the receiver's waker). -/
def Sender.send (c : UnboundedChannel T) (value : T) :
    Except (NoReceiver T) (UnboundedChannel T) :=
  if 2 ≤ c.strong_count then
    Except.ok { c with values := c.values ++ [value] }
  else
    Except.error { value := value }

/-- Send a whole list of values in order; a failed send leaves the channel
as is (unreachable while the receiver is alive). -/
def Sender.sendAll (c : UnboundedChannel T) : List T → UnboundedChannel T
  | [] => c
  | v :: vs =>
    match Sender.send c v with
    | Except.ok c2 => Sender.sendAll c2 vs
    | Except.error _ => c

/-- Dropping every `Sender` handle: the strong count drops to just the
receiver's share. -/
def dropSenders (c : UnboundedChannel T) : UnboundedChannel T :=
  { c with senders := 0 }

/-- From `Receiver::try_receive` in `src/src/channel/unbounded.rs`: pop the
front value if any; on an empty queue report `NoValue` when this receiver is
the only remaining handle (`strong_count == 1`), else "no value yet". -/
def Receiver.try_receive (c : UnboundedChannel T) :
    Except NoValue (Option T) × UnboundedChannel T :=
  match c.values with
  | v :: rest => (Except.ok (some v), { c with values := rest })
  | [] =>
    if c.strong_count = 1 then (Except.error NoValue.mk, c)
    else (Except.ok none, c)

/-- `Poll` from `std::task` as used by the `Stream` and `Future` impls. -/
inductive Poll (α : Type) where
  | Ready (a : α)
  | Pending
deriving DecidableEq, Repr

/-- From `impl Stream for Receiver` in `src/src/channel/unbounded.rs`: a
value yields `Ready(Some)`, an empty but connected queue registers the waker
and is `Pending`, a disconnected empty queue ends the stream with
`Ready(None)`. -/
def Receiver.poll_next (c : UnboundedChannel T) :
    Poll (Option T) × UnboundedChannel T :=
  match Receiver.try_receive c with
  | (Except.ok (some v), c2) => (Poll.Ready (some v), c2)
  | (Except.ok none, c2) => (Poll.Pending, c2)
  | (Except.error _, c2) => (Poll.Ready none, c2)

/-- From `impl Future for ReceiveOne` in `src/src/channel/unbounded.rs`
(`Receiver::receive_one`): a value resolves to `Ok`, an empty connected
queue is `Pending`, disconnection resolves to `Err(NoValue)`. -/
def Receiver.receive_one (c : UnboundedChannel T) :
    Poll (Except NoValue T) × UnboundedChannel T :=
  match Receiver.try_receive c with
  | (Except.ok (some v), c2) => (Poll.Ready (Except.ok v), c2)
  | (Except.ok none, c2) => (Poll.Pending, c2)
  | (Except.error e, c2) => (Poll.Ready (Except.error e), c2)

/-- The results of `n` successive `try_receive` calls. -/
def Receiver.drain (c : UnboundedChannel T) : Nat → List (Except NoValue (Option T))
  | 0 => []
  | n + 1 =>
    match Receiver.try_receive c with
    | (r, c2) => r :: Receiver.drain c2 n

/-- The results of `n` successive `poll_next` calls. -/
def Receiver.pollDrain (c : UnboundedChannel T) : Nat → List (Poll (Option T))
  | 0 => []
  | n + 1 =>
    match Receiver.poll_next c with
    | (r, c2) => r :: Receiver.pollDrain c2 n

/-- The results of `n` successive `receive_one` polls. -/
def Receiver.receiveOneDrain (c : UnboundedChannel T) :
    Nat → List (Poll (Except NoValue T))
  | 0 => []
  | n + 1 =>
    match Receiver.receive_one c with
    | (r, c2) => r :: Receiver.receiveOneDrain c2 n

/-! ## Helper lemmas -/

theorem selectMax_perm (p : ProcessData) (l : List ProcessData) :
    List.Perm (p :: l) ((selectMax p l).1 :: (selectMax p l).2) := by
  induction l generalizing p with
  | nil => simp [selectMax]
  | cons q rest ih =>
    by_cases h : ProcessData.cmp p q = Ordering.lt
    · rcases hsel : selectMax q rest with ⟨m, r2⟩
      have h1 : List.Perm (q :: rest) (m :: r2) := by
        have h2 := ih q
        rw [hsel] at h2
        exact h2
      simp only [selectMax, if_pos h, hsel]
      exact (List.Perm.cons p h1).trans (List.Perm.swap m p r2)
    · rcases hsel : selectMax p rest with ⟨m, r2⟩
      have h1 : List.Perm (p :: rest) (m :: r2) := by
        have h2 := ih p
        rw [hsel] at h2
        exact h2
      simp only [selectMax, if_neg h, hsel]
      exact ((List.Perm.swap q p rest).trans (List.Perm.cons q h1)).trans
        (List.Perm.swap m q r2)

theorem tree_remove_cases (t : Tree) (pid : Nat) :
    (Tree.remove t pid = (none, t) ∧ pid ∉ t.map ProcessData.pid) ∨
    (∃ p t2, Tree.remove t pid = (some p, t2) ∧ p.pid = pid ∧
      List.Perm t (p :: t2)) := by
  induction t with
  | nil => exact Or.inl ⟨rfl, by simp⟩
  | cons q rest ih =>
    by_cases hq : q.pid = pid
    · refine Or.inr ⟨q, rest, ?_, hq, List.Perm.refl _⟩
      simp [Tree.remove, hq]
    · rcases ih with ⟨hnone, hmem⟩ | ⟨p, t2, hsome, hp, hperm⟩
      · refine Or.inl ⟨?_, ?_⟩
        · simp [Tree.remove, hq, hnone]
        · simp only [List.map_cons, List.mem_cons]
          push_neg
          exact ⟨fun hh => hq hh.symm, by simpa using hmem⟩
      · refine Or.inr ⟨p, q :: t2, ?_, hp, ?_⟩
        · simp [Tree.remove, hq, hsome]
        · exact (List.Perm.cons q hperm).trans (List.Perm.swap p q t2)

theorem tree_remove_none_of_not_mem (t : Tree) (pid : Nat)
    (h : pid ∉ t.map ProcessData.pid) : Tree.remove t pid = (none, t) := by
  rcases tree_remove_cases t pid with ⟨heq, _⟩ | ⟨p, t2, heq, hp, hperm⟩
  · exact heq
  · exfalso
    apply h
    have hmem : p ∈ t := (hperm.mem_iff).mpr (List.mem_cons_self _ _)
    rw [← hp]
    exact List.mem_map_of_mem ProcessData.pid hmem

theorem lockReachable_writer_eq (s : LockSys) (h : LockReachable s) :
    s.writer = true ↔ s.owner = OwnerPhase.writing := by
  induction h with
  | init => simp [LockSys.init]
  | step hr hstep ih =>
    cases hstep with
    | ownerTryWriteOk hw hr0 ho => simp
    | ownerWriteDone ho => simp
    | ownerTryReadOk hw ho => simp [hw]
    | ownerReadDone ho =>
      rename_i s2
      have hw : s2.writer = false := by
        cases hb : s2.writer
        · rfl
        · have h2 := ih.mp hb
          rw [ho] at h2
          exact absurd h2 (by simp)
      simp [hw]
    | stealerTryReadOk hw => simpa [hw] using ih
    | stealerReadDone hr2 => exact ih

theorem runSeq_runtime_mono (steps : List (Nat × ProcessResult)) :
    ∀ pd : ProcessData, pd.runtime ≤ (ProcessData.runSeq pd steps).runtime := by
  induction steps with
  | nil =>
    intro pd
    exact Nat.le_refl _
  | cons s rest ih =>
    intro pd
    obtain ⟨e, r⟩ := s
    exact Nat.le_trans (Nat.le_add_right pd.runtime e) (ih (pd.run e r).1)

theorem next_process_some (s : Scheduler) (p : ProcessData) (s1 : Scheduler)
    (h : Scheduler.next_process s = (some p, s1)) :
    List.Perm s.ready (p :: s1.ready) ∧ s1.inactive = s.inactive := by
  unfold Scheduler.next_process at h
  cases hready : s.ready with
  | nil =>
    rw [hready] at h
    simp [RunQueue.remove] at h
  | cons q rest =>
    rw [hready] at h
    simp only [RunQueue.remove] at h
    rcases hsel : selectMax q rest with ⟨m, r2⟩
    rw [hsel] at h
    injection h with h1 h2
    injection h1 with h1
    have hperm := selectMax_perm q rest
    rw [hsel] at hperm
    subst h1
    constructor
    · rw [← h2]
      exact hperm
    · rw [← h2]

theorem mark_ready_pids_subset (s : Scheduler) (pid x : Nat)
    (hx : x ∈ Scheduler.pids (s.mark_ready pid)) : x ∈ Scheduler.pids s := by
  unfold Scheduler.mark_ready at hx
  rcases tree_remove_cases s.inactive pid with ⟨heq, _⟩ | ⟨p, t2, heq, hp, hperm⟩
  · rw [heq] at hx
    exact hx
  · rw [heq] at hx
    unfold Scheduler.pids at hx ⊢
    have hmap : x ∈ List.map ProcessData.pid s.inactive ↔
        x = p.pid ∨ x ∈ List.map ProcessData.pid t2 := by
      rw [(hperm.map ProcessData.pid).mem_iff]
      simp
    simp only [RunQueue.add, List.map_cons, List.mem_append, List.mem_cons] at hx ⊢
    rcases hx with (hx | hx) | hx
    · exact Or.inr (hmap.mpr (Or.inl hx))
    · exact Or.inl hx
    · exact Or.inr (hmap.mpr (Or.inr hx))

theorem add_process_pids (s : Scheduler) (p : ProcessData) (x : Nat) :
    x ∈ Scheduler.pids (s.add_process p) ↔ x = p.pid ∨ x ∈ Scheduler.pids s := by
  unfold Scheduler.pids Scheduler.add_process Tree.add
  simp only [List.map_cons, List.mem_append, List.mem_cons]
  tauto

theorem run_local_process_next (b : Behaviour) (w : Worker) (p : ProcessData)
    (s1 : Scheduler) (h : Scheduler.next_process w.scheduler = (some p, s1)) :
    (b.result p.pid = ProcessResult.Complete →
      Runtime.run_local_process b w = (true, { w with scheduler := s1 })) ∧
    (b.result p.pid = ProcessResult.Pending →
      Runtime.run_local_process b w =
        (true,
          { w with
            scheduler :=
              Scheduler.add_process s1
                { p with runtime := p.runtime + b.elapsed p.pid } })) := by
  constructor <;> intro hres <;> unfold Runtime.run_local_process <;> rw [h] <;>
    simp [ProcessData.run, hres]

theorem stepEvent_preserves_not_mem (b : Behaviour) (w : Worker) (e : Event)
    (x : Nat) (hx : x ∉ Scheduler.pids w.scheduler) :
    x ∉ Scheduler.pids (Runtime.stepEvent b w e).1.scheduler ∧
    (Runtime.stepEvent b w e).2 ≠ some x := by
  cases e with
  | wakeup pid =>
    refine ⟨?_, by simp [Runtime.stepEvent]⟩
    simp only [Runtime.stepEvent]
    intro hmem
    exact hx (mark_ready_pids_subset w.scheduler pid x hmem)
  | runNext =>
    rcases hnp : Scheduler.next_process w.scheduler with ⟨op, s1⟩
    cases op with
    | none =>
      constructor
      · simpa [Runtime.stepEvent, Runtime.run_local_process, hnp] using hx
      · simp [Runtime.stepEvent, Runtime.runPid, hnp]
    | some p =>
      obtain ⟨hperm, hin⟩ := next_process_some w.scheduler p s1 hnp
      have hpmem : p.pid ∈ Scheduler.pids w.scheduler := by
        unfold Scheduler.pids
        exact List.mem_append_left _
          (List.mem_map_of_mem _ ((hperm.mem_iff).mpr (List.mem_cons_self _ _)))
      have hxp : x ≠ p.pid := fun hh => hx (hh ▸ hpmem)
      have hs1 : x ∉ Scheduler.pids s1 := by
        intro hmem
        apply hx
        unfold Scheduler.pids at hmem ⊢
        rcases List.mem_append.mp hmem with hm | hm
        · exact List.mem_append_left _
            ((hperm.map ProcessData.pid).mem_iff.mpr (List.mem_cons_of_mem _ hm))
        · rw [hin] at hm
          exact List.mem_append_right _ hm
      constructor
      · cases hres : b.result p.pid with
        | Complete =>
          have heq := (run_local_process_next b w p s1 hnp).1 hres
          simp only [Runtime.stepEvent, heq]
          exact hs1
        | Pending =>
          have heq := (run_local_process_next b w p s1 hnp).2 hres
          simp only [Runtime.stepEvent, heq]
          intro hmem
          rcases (add_process_pids s1 _ x).mp hmem with hm | hm
          · exact hxp hm
          · exact hs1 hm
      · simp only [Runtime.stepEvent, Runtime.runPid, hnp, Option.map_some]
        intro hh
        injection hh with hh
        exact hxp hh.symm

theorem runTrace_not_mem (b : Behaviour) (x : Nat) (es : List Event) :
    ∀ w : Worker, x ∉ Scheduler.pids w.scheduler →
      x ∉ Runtime.runTrace b w es := by
  induction es with
  | nil =>
    intro w _
    simp [Runtime.runTrace]
  | cons e rest ih =>
    intro w hw
    have hstep := stepEvent_preserves_not_mem b w e x hw
    rcases hse : Runtime.stepEvent b w e with ⟨w2, r⟩
    rw [hse] at hstep
    cases r with
    | none =>
      simp only [Runtime.runTrace, hse]
      exact ih w2 hstep.1
    | some pid =>
      simp only [Runtime.runTrace, hse]
      intro hmem
      rcases List.mem_cons.mp hmem with hm | hm
      · exact hstep.2 (by rw [hm])
      · exact ih w2 hstep.1 hm

theorem runBurst_count_le (b : Behaviour) (fuel : Nat) :
    ∀ w : Worker, (Runtime.runBurst b fuel w).2.2 ≤ fuel := by
  induction fuel with
  | zero =>
    intro w
    simp [Runtime.runBurst]
  | succ n ih =>
    intro w
    rcases hl : Runtime.run_local_process b w with ⟨bl, wl⟩
    cases bl with
    | true =>
      have h1 := ih wl
      rcases hr : Runtime.runBurst b n wl with ⟨o, w2, c⟩
      rw [hr] at h1
      simp only [] at h1
      simp only [Runtime.runBurst, hl, hr]
      omega
    | false =>
      rcases hs : Runtime.run_shared_process b w with ⟨bs, ws⟩
      cases bs with
      | true =>
        have h1 := ih ws
        rcases hr : Runtime.runBurst b n ws with ⟨o, w2, c⟩
        rw [hr] at h1
        simp only [] at h1
        simp only [Runtime.runBurst, hl, hs, hr]
        omega
      | false =>
        cases hcond : (!w.scheduler.has_process && !w.shared.has_process && w.started) with
        | true => simp [Runtime.runBurst, hl, hs, hcond]
        | false => simp [Runtime.runBurst, hl, hs, hcond]

theorem runBurst_exit_conds (b : Behaviour) (fuel : Nat) :
    ∀ w : Worker, (Runtime.runBurst b fuel w).1 = BurstOutcome.exitOk →
      (Runtime.run_local_process b (Runtime.runBurst b fuel w).2.1).1 = false ∧
      (Runtime.run_shared_process b (Runtime.runBurst b fuel w).2.1).1 = false ∧
      Scheduler.has_process (Runtime.runBurst b fuel w).2.1.scheduler = false ∧
      SharedSched.has_process (Runtime.runBurst b fuel w).2.1.shared = false ∧
      (Runtime.runBurst b fuel w).2.1.started = true := by
  induction fuel with
  | zero =>
    intro w h
    simp [Runtime.runBurst] at h
  | succ n ih =>
    intro w h
    rcases hl : Runtime.run_local_process b w with ⟨bl, wl⟩
    cases bl with
    | true =>
      rcases hr : Runtime.runBurst b n wl with ⟨o, w2, c⟩
      have hh : Runtime.runBurst b (n + 1) w = (o, w2, c + 1) := by
        simp [Runtime.runBurst, hl, hr]
      rw [hh] at h ⊢
      have hco := ih wl
      rw [hr] at hco
      exact hco h
    | false =>
      rcases hs : Runtime.run_shared_process b w with ⟨bs, ws⟩
      cases bs with
      | true =>
        rcases hr : Runtime.runBurst b n ws with ⟨o, w2, c⟩
        have hh : Runtime.runBurst b (n + 1) w = (o, w2, c + 1) := by
          simp [Runtime.runBurst, hl, hs, hr]
        rw [hh] at h ⊢
        have hco := ih ws
        rw [hr] at hco
        exact hco h
      | false =>
        cases hcond : (!w.scheduler.has_process && !w.shared.has_process && w.started) with
        | false =>
          have hh : Runtime.runBurst b (n + 1) w = (BurstOutcome.schedule, w, 0) := by
            simp [Runtime.runBurst, hl, hs, hcond]
          rw [hh] at h
          exact absurd h (by simp)
        | true =>
          have hh : Runtime.runBurst b (n + 1) w = (BurstOutcome.exitOk, w, 0) := by
            simp [Runtime.runBurst, hl, hs, hcond]
          rw [hh]
          simp only [Bool.and_eq_true, Bool.not_eq_true'] at hcond
          refine ⟨?_, ?_, hcond.1.1, hcond.1.2, hcond.2⟩
          · rw [hl]
          · rw [hs]

theorem runBurst_exit_now (b : Behaviour) (n : Nat) (v : Worker)
    (hl : (Runtime.run_local_process b v).1 = false)
    (hs : (Runtime.run_shared_process b v).1 = false)
    (hp : Scheduler.has_process v.scheduler = false)
    (hsp : SharedSched.has_process v.shared = false)
    (hst : v.started = true) :
    Runtime.runBurst b (n + 1) v = (BurstOutcome.exitOk, v, 0) := by
  rcases hle : Runtime.run_local_process b v with ⟨bl, wl⟩
  rw [hle] at hl
  simp only [Prod.fst] at hl
  subst hl
  rcases hse : Runtime.run_shared_process b v with ⟨bs, ws⟩
  rw [hse] at hs
  simp only [Prod.fst] at hs
  subst hs
  simp [Runtime.runBurst, hle, hse, hp, hsp, hst]

theorem sendAll_connected (T : Type) (vs : List T) :
    ∀ (q : List T) (n : Nat),
      Sender.sendAll { values := q, senders := n + 1, receiverAlive := true } vs =
        { values := q ++ vs, senders := n + 1, receiverAlive := true } := by
  induction vs with
  | nil =>
    intro q n
    simp [Sender.sendAll]
  | cons v vs ih =>
    intro q n
    have hc : 2 ≤ UnboundedChannel.strong_count
        { values := q, senders := n + 1, receiverAlive := true } := by
      show 2 ≤ n + 1 + 1
      omega
    have hsend : Sender.send { values := q, senders := n + 1, receiverAlive := true } v =
        Except.ok { values := q ++ [v], senders := n + 1, receiverAlive := true } := by
      unfold Sender.send
      rw [if_pos hc]
    simp only [Sender.sendAll, hsend]
    rw [ih (q ++ [v]) n]
    simp

theorem drain_after_drop (T : Type) (vs : List T) :
    Receiver.drain { values := vs, senders := 0, receiverAlive := true }
        (vs.length + 1) =
      vs.map (fun v => Except.ok (some v)) ++ [Except.error NoValue.mk] := by
  induction vs with
  | nil => rfl
  | cons v vs ih =>
    show Except.ok (some v) ::
        Receiver.drain { values := vs, senders := 0, receiverAlive := true }
          (vs.length + 1) = _
    rw [ih]
    simp

theorem pollDrain_after_drop (T : Type) (vs : List T) :
    Receiver.pollDrain { values := vs, senders := 0, receiverAlive := true }
        (vs.length + 1) =
      vs.map (fun v => Poll.Ready (some v)) ++ [Poll.Ready none] := by
  induction vs with
  | nil => rfl
  | cons v vs ih =>
    show Poll.Ready (some v) ::
        Receiver.pollDrain { values := vs, senders := 0, receiverAlive := true }
          (vs.length + 1) = _
    rw [ih]
    simp

theorem receiveOneDrain_after_drop (T : Type) (vs : List T) :
    Receiver.receiveOneDrain { values := vs, senders := 0, receiverAlive := true }
        (vs.length + 1) =
      vs.map (fun v => Poll.Ready (Except.ok v)) ++
        [Poll.Ready (Except.error NoValue.mk)] := by
  induction vs with
  | nil => rfl
  | cons v vs ih =>
    show Poll.Ready (Except.ok v) ::
        Receiver.receiveOneDrain { values := vs, senders := 0, receiverAlive := true }
          (vs.length + 1) = _
    rw [ih]
    simp

/-! ## Claims -/

/-- C1: in the scheduler's ordering of processes, for any two `ProcessData`
values, the one with the smaller product of accumulated runtime and priority
weight is popped first from the run queue; when the two products are equal,
the process with the higher priority (the smaller weight) is popped first. -/
theorem processData_ordering_spec (p q : ProcessData) :
    (p.sortKey < q.sortKey →
      RunQueue.remove (RunQueue.add (RunQueue.add RunQueue.empty q) p) =
        some (p, [q])) ∧
    (p.sortKey = q.sortKey → p.priority.weight < q.priority.weight →
      RunQueue.remove (RunQueue.add (RunQueue.add RunQueue.empty q) p) =
        some (p, [q])) := by
  constructor
  · intro h
    have hcmp : ProcessData.cmp p q = Ordering.gt := by
      unfold ProcessData.cmp
      have hc : compare q.sortKey p.sortKey = Ordering.gt :=
        Nat.compare_eq_gt.mpr h
      rw [hc]
      rfl
    simp [RunQueue.add, RunQueue.empty, RunQueue.remove, selectMax, hcmp]
  · intro heq hpr
    have hcmp : ProcessData.cmp p q = Ordering.gt := by
      unfold ProcessData.cmp
      have hc : compare q.sortKey p.sortKey = Ordering.eq := by
        rw [heq]
        exact Nat.compare_eq_eq.mpr rfl
      rw [hc]
      unfold Priority.cmp
      have hc2 : compare q.priority.weight p.priority.weight = Ordering.gt :=
        Nat.compare_eq_gt.mpr hpr
      rw [hc2]
      rfl
    simp [RunQueue.add, RunQueue.empty, RunQueue.remove, selectMax, hcmp]

/-- C1 witness: a process with product 3 is popped before one with product
5, at concrete inputs. -/
theorem processData_ordering_spec_witness :
    RunQueue.remove
        (RunQueue.add (RunQueue.add RunQueue.empty ⟨2, ⟨1⟩, 5⟩) ⟨1, ⟨1⟩, 3⟩) =
      some (⟨1, ⟨1⟩, 3⟩, [⟨2, ⟨1⟩, 5⟩]) :=
  (processData_ordering_spec ⟨1, ⟨1⟩, 3⟩ ⟨2, ⟨1⟩, 5⟩).1 (by decide)

/-- C3: `mark_ready(pid)` moves the process from the inactive set to the run
queue when the pid is present there; for any pid not present the call is a
silent no-op that leaves the scheduler unchanged. -/
theorem mark_ready_spec (s : Scheduler) (pid : Nat) :
    (pid ∉ s.inactive.map ProcessData.pid → s.mark_ready pid = s) ∧
    (pid ∈ s.inactive.map ProcessData.pid →
      ∃ p : ProcessData, p.pid = pid ∧
        (s.mark_ready pid).ready = RunQueue.add s.ready p ∧
        List.Perm s.inactive (p :: (s.mark_ready pid).inactive)) := by
  constructor
  · intro h
    unfold Scheduler.mark_ready
    rw [tree_remove_none_of_not_mem s.inactive pid h]
  · intro h
    rcases tree_remove_cases s.inactive pid with ⟨_, hnot⟩ | ⟨p, t2, heq, hp, hperm⟩
    · exact absurd h hnot
    · refine ⟨p, hp, ?_, ?_⟩
      · unfold Scheduler.mark_ready
        rw [heq]
      · unfold Scheduler.mark_ready
        rw [heq]
        exact hperm

/-- C3 witness: a wakeup for an absent pid leaves a concrete scheduler
unchanged. -/
theorem mark_ready_spec_witness :
    Scheduler.mark_ready ⟨[], [⟨7, ⟨1⟩, 0⟩]⟩ 8 = ⟨[], [⟨7, ⟨1⟩, 0⟩]⟩ :=
  (mark_ready_spec ⟨[], [⟨7, ⟨1⟩, 0⟩]⟩ 8).1 (by decide)

/-- C9: `ProcessData::run` adds the elapsed execution time of the call to the
stored runtime, returns exactly the inner runnable's result, leaves priority
(and pid) unchanged, and across any sequence of runs the runtime field is
monotonically non-decreasing. -/
theorem processData_run_spec (pd : ProcessData) (e : Nat) (r : ProcessResult) :
    (pd.run e r).1.runtime = pd.runtime + e ∧
    (pd.run e r).2 = r ∧
    (pd.run e r).1.priority = pd.priority ∧
    (pd.run e r).1.pid = pd.pid ∧
    pd.runtime ≤ (pd.run e r).1.runtime ∧
    ∀ steps : List (Nat × ProcessResult),
      pd.runtime ≤ (ProcessData.runSeq pd steps).runtime :=
  ⟨rfl, rfl, rfl, rfl, Nat.le_add_right _ _, fun steps => runSeq_runtime_mono steps pd⟩

/-- C5: `determine_timeout` returns zero whenever a local process is ready,
the user-space waker queue is non-empty, or a shared process is ready;
otherwise with a local deadline it returns that deadline minus now (zero if
already passed) further reduced by the shared scheduler's next deadline; and
with no local deadline it returns the shared scheduler's next timeout, or
`none` (block indefinitely) if there is none. -/
theorem determine_timeout_spec (i : TimeoutInputs) :
    ((i.localReady || i.wakerNonEmpty || i.sharedReady) = true →
      Runtime.determine_timeout i = some 0) ∧
    ((i.localReady || i.wakerNonEmpty || i.sharedReady) = false →
      (∀ d : Nat, i.localDeadline = some d →
        Runtime.determine_timeout i =
          SharedSched.next_timeout i.sharedDeadline i.now (some (d - i.now)) ∧
        (d ≤ i.now → Runtime.determine_timeout i = some 0)) ∧
      (i.localDeadline = none →
        Runtime.determine_timeout i =
          SharedSched.next_timeout i.sharedDeadline i.now none ∧
        (i.sharedDeadline = none → Runtime.determine_timeout i = none))) := by
  constructor
  · intro h
    simp [Runtime.determine_timeout, h]
  · intro hb
    constructor
    · intro d hd
      constructor
      · by_cases hle : d ≤ i.now
        · have hsub : d - i.now = 0 := Nat.sub_eq_zero_of_le hle
          cases hsd : i.sharedDeadline with
          | none =>
            simp [Runtime.determine_timeout, hb, hd, hle, SharedSched.next_timeout,
              hsd, hsub]
          | some sd =>
            simp [Runtime.determine_timeout, hb, hd, hle, SharedSched.next_timeout,
              hsd, hsub, Nat.zero_min]
        · simp [Runtime.determine_timeout, hb, hd, hle]
      · intro hle
        simp [Runtime.determine_timeout, hb, hd, hle]
    · intro hd
      refine ⟨by simp [Runtime.determine_timeout, hb, hd], ?_⟩
      intro hsd
      simp [Runtime.determine_timeout, hb, hd, hsd, SharedSched.next_timeout]

/-- C5 witness: with nothing ready, a local deadline at 10, a shared deadline
at 5 and now 3, the timeout is the shared-reduced local timeout, 2. -/
theorem determine_timeout_spec_witness :
    Runtime.determine_timeout
        { localReady := false, wakerNonEmpty := false, sharedReady := false,
          localDeadline := some 10, sharedDeadline := some 5, now := 3 } =
      some 2 :=
  (((determine_timeout_spec
      { localReady := false, wakerNonEmpty := false, sharedReady := false,
        localDeadline := some 10, sharedDeadline := some 5, now := 3 }).2
    rfl).1 10 rfl).1.trans (by decide)

/-- C6: whenever the `Scheduler`, which is the only agent allowed to call
`try_write` on the run-queue lock, accesses the run queue through
`Scheduler::run_queue` (so while it holds no write guard of its own), the
`try_read` always succeeds: in every reachable lock state with the owner
outside its write section the write lock is not held, so the unreachable
error branch is never taken. -/
theorem run_queue_try_read_always_succeeds (s : LockSys)
    (h : LockReachable s) (houter : s.owner = OwnerPhase.outside) :
    s.writer = false ∧
    LockSys.try_read s = some { s with readers := s.readers + 1 } := by
  have hw : s.writer = false := by
    cases hb : s.writer
    · rfl
    · have h2 := (lockReachable_writer_eq s h).mp hb
      rw [houter] at h2
      exact absurd h2 (by simp)
  exact ⟨hw, by simp [LockSys.try_read, hw]⟩

/-- C6 witness: in the initial lock state the owner's `try_read`
succeeds. -/
theorem run_queue_try_read_always_succeeds_witness :
    LockSys.try_read LockSys.init =
      some { writer := false, readers := 1, owner := OwnerPhase.outside } :=
  (run_queue_try_read_always_succeeds LockSys.init LockReachable.init rfl).2

/-- C7: relaying a signal with an empty signal-receiver list and a
stop-class signal fails the worker with `ProcessInterrupted`; in every other
case the signal is try-sent to every registered receiver and the call
succeeds, even if individual sends fail (disconnected receivers are
skipped silently). -/
theorem relay_signal_spec (receivers : List SigReceiver) (signal : Signal) :
    (receivers = [] → signal.should_stop = true →
      Runtime.relay_signal receivers signal =
        Except.error RtError.ProcessInterrupted) ∧
    (receivers.isEmpty = false ∨ signal.should_stop = false →
      Runtime.relay_signal receivers signal =
        Except.ok (receivers.map (fun r => r.try_send signal)) ∧
      ∀ r ∈ receivers, r.connected = true →
        (r.try_send signal).inbox = r.inbox ++ [signal]) := by
  constructor
  · intro h hstop
    subst h
    simp [Runtime.relay_signal, hstop]
  · intro h
    have hcond : (receivers.isEmpty && signal.should_stop) = false := by
      rcases h with h | h <;> simp [h]
    refine ⟨by simp [Runtime.relay_signal, hcond], ?_⟩
    intro r _ hconn
    simp [SigReceiver.try_send, hconn]

/-- C7 witness: a stop signal with no receivers terminates the worker with
`ProcessInterrupted`. -/
theorem relay_signal_spec_witness :
    Runtime.relay_signal [] Signal.terminate =
      Except.error RtError.ProcessInterrupted :=
  (relay_signal_spec [] Signal.terminate).1 rfl rfl

/-- C8 counterexample: sending 42 through a machine-local actor reference
whose receiving side is gone returns `Ok(())`, not a `SendError` carrying the
message, refuting the claim for that flavour of actor reference. -/
theorem machine_send_dropped_inbox_returns_ok :
    (MachineLocalActorRef.send { connected := false, queue := ([] : List Nat) }
        42).2 = Except.ok () ∧
    (MachineLocalActorRef.send { connected := false, queue := ([] : List Nat) }
        42).2 ≠ Except.error { message := 42 } :=
  ⟨rfl, fun h => Except.noConfusion h⟩

/-- C8 (amended): a send to a dropped inbox is returned to the sender as a
`SendError` carrying the original message for the local flavour (and a sole
unbounded-channel sender gets `NoReceiver` with the value back), but the
machine-local flavour discards the channel's send result and returns `Ok`
even though the receiving side is gone and the message is lost. -/
theorem send_dropped_inbox_spec (M : Type) (inbox : InboxState M)
    (ch : MachineChannel M) (c : UnboundedChannel M) (msg : M)
    (hdead : inbox.alive = false) (hrecv : c.receiverAlive = false)
    (hone : c.senders = 1) :
    Local.send inbox msg = Except.error { message := msg } ∧
    Sender.send c msg = Except.error { value := msg } ∧
    (MachineLocalActorRef.send ch msg).2 = Except.ok () := by
  refine ⟨?_, ?_, rfl⟩
  · simp [Local.send, InboxRef.try_deliver, hdead]
  · have hsc : c.strong_count = 1 := by
      simp [UnboundedChannel.strong_count, hone, hrecv]
    simp [Sender.send, hsc]

/-- C8 witness: a local send to a concrete dropped inbox returns the message
in a `SendError`. -/
theorem send_dropped_inbox_spec_witness :
    Local.send { alive := false, messages := [] } (7 : Nat) =
      Except.error { message := 7 } :=
  (send_dropped_inbox_spec Nat { alive := false, messages := [] }
    { connected := false, queue := [] }
    { values := [], senders := 1, receiverAlive := false } 7 rfl rfl rfl).1

/-- C10: for the unbounded channel, after any sequence of sends followed by
dropping all senders, the receiver still yields every previously sent value
in FIFO order — through `try_receive`, the `Stream` impl (`poll_next`) and
`receive_one` — and reports disconnection (`NoValue` / end of stream) only
once the queued values are exhausted. -/
theorem unbounded_channel_fifo_spec (T : Type) (vs : List T) (n : Nat) :
    Receiver.drain
        (dropSenders (Sender.sendAll
          { values := [], senders := n + 1, receiverAlive := true } vs))
        (vs.length + 1) =
      vs.map (fun v => Except.ok (some v)) ++ [Except.error NoValue.mk] ∧
    Receiver.pollDrain
        (dropSenders (Sender.sendAll
          { values := [], senders := n + 1, receiverAlive := true } vs))
        (vs.length + 1) =
      vs.map (fun v => Poll.Ready (some v)) ++ [Poll.Ready none] ∧
    Receiver.receiveOneDrain
        (dropSenders (Sender.sendAll
          { values := [], senders := n + 1, receiverAlive := true } vs))
        (vs.length + 1) =
      vs.map (fun v => Poll.Ready (Except.ok v)) ++
        [Poll.Ready (Except.error NoValue.mk)] := by
  have hdrop : dropSenders (Sender.sendAll
      { values := [], senders := n + 1, receiverAlive := true } vs) =
      { values := vs, senders := 0, receiverAlive := true } := by
    rw [sendAll_connected T vs [] n]
    simp [dropSenders]
  rw [hdrop]
  exact ⟨drain_after_drop T vs, pollDrain_after_drop T vs,
    receiveOneDrain_after_drop T vs⟩

/-- C2: a process whose run returns Complete is released by the worker and
never run again — its pid leaves the scheduler and any later sequence of
wakeups and runs never runs it — while a process whose run returns Pending
is re-inserted into the scheduler's inactive set, not the run queue. -/
theorem run_local_process_spec (b : Behaviour) (w : Worker) (p : ProcessData)
    (s1 : Scheduler) (hnodup : (Scheduler.pids w.scheduler).Nodup)
    (hnext : Scheduler.next_process w.scheduler = (some p, s1)) :
    (b.result p.pid = ProcessResult.Complete →
      Runtime.run_local_process b w = (true, { w with scheduler := s1 }) ∧
      p.pid ∉ Scheduler.pids s1 ∧
      ∀ es : List Event,
        p.pid ∉ Runtime.runTrace b { w with scheduler := s1 } es) ∧
    (b.result p.pid = ProcessResult.Pending →
      (Runtime.run_local_process b w).1 = true ∧
      p.pid ∈ List.map ProcessData.pid
        (Runtime.run_local_process b w).2.scheduler.inactive ∧
      p.pid ∉ List.map ProcessData.pid
        (Runtime.run_local_process b w).2.scheduler.ready) := by
  obtain ⟨hperm, hin⟩ := next_process_some w.scheduler p s1 hnext
  have hperm2 : List.Perm (Scheduler.pids w.scheduler)
      (p.pid :: Scheduler.pids s1) := by
    unfold Scheduler.pids
    rw [hin]
    have h1 : List.Perm (List.map ProcessData.pid w.scheduler.ready)
        (p.pid :: List.map ProcessData.pid s1.ready) := by
      simpa using hperm.map ProcessData.pid
    have h2 := h1.append_right (List.map ProcessData.pid w.scheduler.inactive)
    simpa using h2
  have hnotin : p.pid ∉ Scheduler.pids s1 :=
    (List.nodup_cons.mp (hperm2.nodup hnodup)).1
  constructor
  · intro hres
    have heq := (run_local_process_next b w p s1 hnext).1 hres
    refine ⟨heq, hnotin, ?_⟩
    intro es
    exact runTrace_not_mem b p.pid es _ hnotin
  · intro hres
    have heq := (run_local_process_next b w p s1 hnext).2 hres
    rw [heq]
    refine ⟨rfl, ?_, ?_⟩
    · simp [Scheduler.add_process, Tree.add]
    · simp only [Scheduler.add_process]
      intro hm
      apply hnotin
      unfold Scheduler.pids
      exact List.mem_append_left _ hm

/-- C2 witness: on a concrete scheduler holding the single process with pid
5 that completes on its run, the pid is gone and a later wakeup for 5
followed by a run runs nothing. -/
theorem run_local_process_spec_witness :
    (5 : Nat) ∉ Runtime.runTrace
      { result := fun _ => ProcessResult.Complete, elapsed := fun _ => 0 }
      { scheduler := { ready := [], inactive := [] },
        shared := { ready := [], inactive := [] }, started := true }
      [Event.wakeup 5, Event.runNext] :=
  ((run_local_process_spec
      { result := fun _ => ProcessResult.Complete, elapsed := fun _ => 0 }
      { scheduler := { ready := [⟨5, ⟨1⟩, 0⟩], inactive := [] },
        shared := { ready := [], inactive := [] }, started := true }
      ⟨5, ⟨1⟩, 0⟩ { ready := [], inactive := [] } (by decide) rfl).1 rfl).2.2
    [Event.wakeup 5, Event.runNext]

/-- C4: the worker event loop's run burst returns success exactly from an
iteration in which no local and no shared process was run, the local
scheduler has no process in any state, the shared scheduler has no process,
and the started flag is true; and at most `RUN_POLL_RATIO` = 32 processes
are run in a burst between successive scheduling/poll phases. -/
theorem run_event_loop_exit_spec (b : Behaviour) (w : Worker) :
    (Runtime.eventLoopBurst b w).2.2 ≤ RUN_POLL_RATIO ∧
    ((Runtime.eventLoopBurst b w).1 = BurstOutcome.exitOk →
      (Runtime.run_local_process b (Runtime.eventLoopBurst b w).2.1).1 = false ∧
      (Runtime.run_shared_process b (Runtime.eventLoopBurst b w).2.1).1 = false ∧
      Scheduler.has_process (Runtime.eventLoopBurst b w).2.1.scheduler = false ∧
      SharedSched.has_process (Runtime.eventLoopBurst b w).2.1.shared = false ∧
      (Runtime.eventLoopBurst b w).2.1.started = true) ∧
    ∀ v : Worker,
      (Runtime.run_local_process b v).1 = false →
      (Runtime.run_shared_process b v).1 = false →
      Scheduler.has_process v.scheduler = false →
      SharedSched.has_process v.shared = false →
      v.started = true →
      Runtime.eventLoopBurst b v = (BurstOutcome.exitOk, v, 0) := by
  refine ⟨runBurst_count_le b RUN_POLL_RATIO w,
    runBurst_exit_conds b RUN_POLL_RATIO w, ?_⟩
  intro v hl hs hp hsp hst
  have h32 : RUN_POLL_RATIO = 31 + 1 := rfl
  unfold Runtime.eventLoopBurst
  rw [h32]
  exact runBurst_exit_now b 31 v hl hs hp hsp hst

/-- C4 witness: on an already-started worker with empty schedulers, the
burst exits with success immediately, having run zero processes. -/
theorem run_event_loop_exit_spec_witness :
    Runtime.eventLoopBurst
        { result := fun _ => ProcessResult.Complete, elapsed := fun _ => 0 }
        { scheduler := { ready := [], inactive := [] },
          shared := { ready := [], inactive := [] }, started := true } =
      (BurstOutcome.exitOk,
        { scheduler := { ready := [], inactive := [] },
          shared := { ready := [], inactive := [] }, started := true }, 0) :=
  (run_event_loop_exit_spec
      { result := fun _ => ProcessResult.Complete, elapsed := fun _ => 0 }
      { scheduler := { ready := [], inactive := [] },
        shared := { ready := [], inactive := [] }, started := true }).2.2
    { scheduler := { ready := [], inactive := [] },
      shared := { ready := [], inactive := [] }, started := true }
    rfl rfl rfl rfl rfl

end Heph
